import Mathlib

/-!
Verification of the IPSSI_PATCH repository's validation / sanitization /
rate-limiting core, shallowly embedded in Lean.

Text is embedded as `String` (a packed `List Char`); machine integers of the
JavaScript source are embedded as `Nat` (all quantities involved are small
non-negative counters, lengths and identifiers).
-/

/-- Lower-cased character, used for case-insensitive tag-name comparison. -/
def lowerChar (c : Char) : Char := c.toLower

/-- The tag name of the text collected between a `<` and the closing `>`:
the characters up to the first space, lower-cased. -/
def tagNameLower (acc : List Char) : List Char :=
  (acc.takeWhile (fun c => c ≠ ' ')).map lowerChar

/-- The lower-cased name `script` as a character list. -/
def scriptName : List Char := "script".data

/-- The lower-cased name `style` as a character list. -/
def styleName : List Char := "style".data

/-- Parser state of the sanitizer: reading plain text, collecting a tag
(characters seen after `<`, most recent first), skipping a script/style body
while looking for the matching closing tag, or collecting a candidate
closing tag inside a skipped body. -/
inductive SanState where
  | txt : SanState
  | tag : List Char → SanState
  | skipBody : List Char → SanState
  | skipTag : List Char → List Char → SanState

/-- Modelled from the spec: the sanitizer applied by
`commentService.createComment` is the external `xss` library (not part of
this repository's sources) configured with an empty whitelist,
`stripIgnoreTag: true` and `stripIgnoreTagBody: ['script', 'style']`.
Per the spec's sanitizer contract: every recognized tag (`<` up to the next
`>`) is removed entirely, the whole body of a `script`/`style` element is
removed up to and including its matching closing tag (to the end of input
when unclosed), plain text outside removed markup is preserved character for
character, and a `<` never followed by `>` is left verbatim. -/
def sanRun : SanState → List Char → List Char
  | .txt, [] => []
  | .tag acc, [] => '<' :: acc.reverse
  | .skipBody _, [] => []
  | .skipTag _ _, [] => []
  | .txt, c :: cs =>
      if c = '<' then sanRun (.tag []) cs else c :: sanRun .txt cs
  | .tag acc, c :: cs =>
      if c = '>' then
        let n := tagNameLower acc.reverse
        if n = scriptName ∨ n = styleName then sanRun (.skipBody n) cs
        else sanRun .txt cs
      else sanRun (.tag (c :: acc)) cs
  | .skipBody n, c :: cs =>
      if c = '<' then sanRun (.skipTag n []) cs else sanRun (.skipBody n) cs
  | .skipTag n acc, c :: cs =>
      if c = '<' then sanRun (.skipTag n []) cs
      else if c = '>' then
        if acc.reverse.map lowerChar = '/' :: n then sanRun .txt cs
        else sanRun (.skipBody n) cs
      else sanRun (.skipTag n (c :: acc)) cs

/-- Sanitize a character list, starting in plain-text state. -/
def sanitizeList (l : List Char) : List Char := sanRun .txt l

/-- Sanitize a string (the model of `xss(content, {...})` in
`commentService.createComment`). -/
def sanitize (s : String) : String := ⟨sanitizeList s.data⟩

/-- JS `String.prototype.trim` on character lists: drop leading and trailing
whitespace. -/
def jsTrimList (l : List Char) : List Char :=
  ((l.dropWhile Char.isWhitespace).reverse.dropWhile Char.isWhitespace).reverse

/-- JS `String.prototype.trim` (model of `.trim()` in the validator and the
comment controller). -/
def jsTrim (s : String) : String := ⟨jsTrimList s.data⟩

/-- Value of a digit string. -/
def digitsToNat (l : List Char) : Nat :=
  l.foldl (fun n c => n * 10 + (c.toNat - '0'.toNat)) 0

/-- Parse of a non-negative integer string: `some` exactly on non-empty
all-digit strings (the inputs accepted by `isInt` that can satisfy
`min: 1`; signed strings never validate as positive ids). -/
def parseIdParam (s : String) : Option Nat :=
  if s.data ≠ [] ∧ s.data.all Char.isDigit then some (digitsToNat s.data)
  else none

/-! ## Comment data model and persistence (src/unnamed/part_000, Sequelize `Comment`) -/

/-- A stored comment row: (storage-assigned integer id, content text).
Timestamps are assigned by storage and irrelevant to the claims. -/
structure CommentStore where
  comments : List (Nat × String)
  nextId : Nat
deriving DecidableEq, Repr

/-- The `Comment` model's own validation (part_000): `allowNull: false`,
`notEmpty: true`, `len: [1, 5000]` on `content`.  Sequelize's `notEmpty`
rejects every whitespace-only string (it fails values matching
`^[\s\t\r\n]*$`), not just the empty one, so acceptance requires a
non-whitespace character.  A create with a content violating these throws,
i.e. fails. -/
def commentModelOk (content : String) : Bool :=
  content.data.any (fun c => !c.isWhitespace) &&
  decide (1 ≤ content.length) && decide (content.length ≤ 5000)

/-- `Comment.create(\x7b content \x7d)`: validates per the model, then appends a
row with the next storage-assigned id.  `Except` models the throw on a
validation failure. -/
def commentCreate (content : String) (st : CommentStore) :
    Except Unit ((Nat × String) × CommentStore) :=
  if commentModelOk content then
    .ok ((st.nextId, content),
         ⟨st.comments ++ [(st.nextId, content)], st.nextId + 1⟩)
  else .error ()

/-! ## Comment service (src/backend/src/services/userService.js, `commentService`) -/

/-- `commentService.createComment(content)`: sanitizes the content with the
`xss` library (modelled by `sanitize`) and persists the sanitized value. -/
def commentServiceCreate (content : String) (st : CommentStore) :
    Except Unit ((Nat × String) × CommentStore) :=
  commentCreate (sanitize content) st

/-- `commentService.deleteComment(commentId)`: `findByPk`, return `false`
when absent, otherwise `destroy` that row and return `true`. -/
def commentServiceDelete (commentId : Nat) (st : CommentStore) :
    Bool × CommentStore :=
  match st.comments.find? (fun c => c.1 == commentId) with
  | none => (false, st)
  | some _ => (true, ⟨st.comments.eraseP (fun c => c.1 == commentId), st.nextId⟩)

/-! ## Request bodies and responses -/

/-- The shape of `req.body` on POST /comment after the body parsers:
a plain-text body (`typeof req.body === 'string'`), or a parsed JSON body
whose `comment` field is a string — or lacks one (`obj none` covers any
non-string body without a string `comment` field). -/
inductive ReqBody where
  | text : String → ReqBody
  | obj : Option String → ReqBody
deriving DecidableEq

/-- The controller's extraction expression
`typeof req.body === 'string' ? req.body : req.body.comment`
(part_002, `createComment`); `none` models `undefined`. -/
def extractComment : ReqBody → Option String
  | .text s => some s
  | .obj c => c

/-- JSON API responses relevant to the claims, one constructor per shape
used by the controllers and by `handleValidationErrors`. -/
inductive ApiResp where
  | created : Nat → String → ApiResp
  | badRequest : String → ApiResp
  | validationFailed : List String → ApiResp
  | notFound : String → ApiResp
  | serverError : String → ApiResp
  | deleted : ApiResp
deriving DecidableEq, Repr

/-- The HTTP status code each response shape is sent with. -/
def ApiResp.status : ApiResp → Nat
  | .created _ _ => 201
  | .badRequest _ => 400
  | .validationFailed _ => 400
  | .notFound _ => 404
  | .serverError _ => 500
  | .deleted => 200

/-! ## Validators (src/unnamed/part_003) -/

/-- `validators.validateComment`: the two chained `.custom()` checks on
`body()`.  The first extracts the comment text (plain string body, or the
`comment` string field of an object body), sets
`req.sanitizedComment = text.trim()`, and errors with
`Comment text is required` otherwise.  The second errors with
`Comment cannot be empty` when `req.sanitizedComment` is unset or empty
(in particular it also fires whenever the first check failed), and with
`Comment must be less than 1000 characters` when the trimmed length
exceeds 1000.  express-validator runs both checks and accumulates all
errors; `handleValidationErrors` then returns them all as `details`. -/
def validateCommentErrors (b : ReqBody) : List String :=
  let e1 := match extractComment b with
    | some _ => []
    | none => ["Comment text is required"]
  let sanitizedComment := (extractComment b).map jsTrim
  let e2 := match sanitizedComment with
    | none => ["Comment cannot be empty"]
    | some s =>
        if s.length = 0 then ["Comment cannot be empty"]
        else if 1000 < s.length then ["Comment must be less than 1000 characters"]
        else []
  e1 ++ e2

/-- `validators.validateCommentId`: the `:id` URL parameter must be an
integer string with value at least 1 (`isInt(\x7b min: 1 \x7d)`). -/
def validateCommentIdErrors (idParam : String) : List String :=
  match parseIdParam idParam with
  | some n => if 1 ≤ n then [] else ["Comment ID must be a positive integer"]
  | none => ["Comment ID must be a positive integer"]

/-! ## Comment controllers (src/unnamed/part_002) -/

/-- `commentController.createComment`: re-extracts the comment text from the
raw body, answers 400 when it is missing or trims to empty, otherwise calls
`commentService.createComment` with the (untrimmed) extracted text; a
service throw is caught and answered as a 500. -/
def createCommentController (b : ReqBody) (st : CommentStore) :
    ApiResp × CommentStore :=
  match extractComment b with
  | none => (.badRequest "Comment text is required", st)
  | some s =>
      if jsTrim s = "" then (.badRequest "Comment text is required", st)
      else
        match commentServiceCreate s st with
        | .ok (row, st') => (.created row.1 row.2, st')
        | .error _ => (.serverError "Failed to create comment", st)

/-- `commentController.deleteComment`: 404 when the service reports the id
absent, success confirmation otherwise. -/
def deleteCommentController (commentId : Nat) (st : CommentStore) :
    ApiResp × CommentStore :=
  match commentServiceDelete commentId st with
  | (false, st') => (.notFound "Comment not found", st')
  | (true, st') => (.deleted, st')

/-! ## Routes (src/backend/src/routes/index.js), after the rate-limit gate -/

/-- POST /comment: `validateComment` then `handleValidationErrors` then the
controller.  A non-empty error list short-circuits with a 400 carrying every
accumulated error as `details`; otherwise the controller runs. -/
def createCommentRoute (b : ReqBody) (st : CommentStore) :
    ApiResp × CommentStore :=
  let errs := validateCommentErrors b
  if errs = [] then createCommentController b st
  else (.validationFailed errs, st)

/-- DELETE /comments/:id: `validateCommentId` then `handleValidationErrors`
then the controller (with the parameter converted by `toInt()`). -/
def deleteCommentRoute (idParam : String) (st : CommentStore) :
    ApiResp × CommentStore :=
  let errs := validateCommentIdErrors idParam
  if errs = [] then deleteCommentController ((parseIdParam idParam).getD 0) st
  else (.validationFailed errs, st)

/-! ## Users: bulk-populate (src/backend/src/services/userService.js `userService`,
routes/index.js `userController.populate`) -/

/-- One external candidate record from the random-user source:
`name.first`, `name.last`, `email`, `dob.age`. -/
structure Candidate where
  first : String
  last : String
  email : String
  age : Nat
deriving DecidableEq, Repr

/-- A stored user row with its storage-assigned identifier. -/
structure UserRec where
  id : Nat
  firstName : String
  lastName : String
  email : String
  age : Nat
deriving DecidableEq, Repr

/-- The user table with its id sequence. -/
structure UserStore where
  users : List UserRec
  nextId : Nat
deriving DecidableEq, Repr

/-- The number of records requested from the external source:
`axios.get('https://randomuser.me/api/?results=3')`. -/
def populateResultsCount : Nat := 3

/-- The `for (const userData of users)` loop of `userService.populateUsers`:
one `User.create` per candidate, in the order received, each user appended
to the accumulating `createdUsers`. -/
def createUsersLoop : List Candidate → UserStore → List UserRec × UserStore
  | [], st => ([], st)
  | c :: cs, st =>
      let u : UserRec := ⟨st.nextId, c.first, c.last, c.email, c.age⟩
      let r := createUsersLoop cs ⟨st.users ++ [u], st.nextId + 1⟩
      (u :: r.1, r.2)

/-- `userController.populate`: a failed external fetch is caught and mapped
to a 500 `Failed to populate users` with no user created; a successful fetch
creates one user per received record and answers with the created list. -/
def populateController (fetched : Except Unit (List Candidate))
    (st : UserStore) : (ApiResp ⊕ List UserRec) × UserStore :=
  match fetched with
  | .error _ => (.inl (.serverError "Failed to populate users"), st)
  | .ok cands =>
      let r := createUsersLoop cands st
      (.inr r.1, r.2)

/-! ## Rate limiter (src/unnamed/part_003 configurations; semantics of the
external express-rate-limit library modelled from the spec) -/

/-- One rate-limiter class configuration: window length in milliseconds and
maximum request count per window. -/
structure RateLimitConfig where
  windowMs : Nat
  maxReq : Nat
deriving DecidableEq, Repr

/-- `apiLimiter` (part_003): 15 minutes, 100 requests per IP. -/
def apiLimiterCfg : RateLimitConfig := ⟨15 * 60 * 1000, 100⟩

/-- `writeLimiter` (part_003): 15 minutes, 50 write requests per IP. -/
def writeLimiterCfg : RateLimitConfig := ⟨15 * 60 * 1000, 50⟩

/-- `populateLimiter` (part_003): 1 hour, 10 populate requests per IP. -/
def populateLimiterCfg : RateLimitConfig := ⟨60 * 60 * 1000, 10⟩

/-- The counter of one (client address, class) key: request count and the
start time of its current window. -/
structure CounterState where
  count : Nat
  windowStart : Nat
deriving DecidableEq, Repr

/-- Modelled from the spec: the counter semantics of the external
express-rate-limit library (not part of this repository's sources).
The effective count of a key at time `now`: its stored count while the
window is live, zero when no counter exists or the window has elapsed. -/
def limiterCheck (cfg : RateLimitConfig) (now : Nat)
    (st : Option CounterState) : Nat :=
  match st with
  | none => 0
  | some c => if now < c.windowStart + cfg.windowMs then c.count else 0

/-- A request is allowed by one class when its effective count is strictly
below the class maximum. -/
def limiterAllows (cfg : RateLimitConfig) (now : Nat)
    (st : Option CounterState) : Bool :=
  limiterCheck cfg now st < cfg.maxReq

/-- Modelled from the spec: recording one allowed request — increment inside
a live window, otherwise open a fresh window starting now with count one. -/
def limiterRecord (cfg : RateLimitConfig) (now : Nat)
    (st : Option CounterState) : CounterState :=
  match st with
  | some c =>
      if now < c.windowStart + cfg.windowMs then ⟨c.count + 1, c.windowStart⟩
      else ⟨1, now⟩
  | none => ⟨1, now⟩

/-- Modelled from the spec: one request against every limiter class that
applies to its endpoint.  If any applicable counter is at or over its
maximum, the request is rejected and no counter is incremented; otherwise
every applicable counter is incremented by one and the request proceeds. -/
def rateLimitStep (cfgs : List RateLimitConfig) (now : Nat)
    (sts : List (Option CounterState)) :
    Bool × List (Option CounterState) :=
  if (cfgs.zip sts).all (fun p => limiterAllows p.1 now p.2) then
    (true, (cfgs.zip sts).map (fun p => some (limiterRecord p.1 now p.2)))
  else (false, sts)

/-- A sequence of single-class requests at the given times, threading the
counter; returns the per-request accept/reject outcomes and the final
counter. -/
def runRequests (cfg : RateLimitConfig) :
    List Nat → Option CounterState → List Bool × Option CounterState
  | [], st => ([], st)
  | t :: ts, st =>
      if limiterAllows cfg t st then
        let r := runRequests cfg ts (some (limiterRecord cfg t st))
        (true :: r.1, r.2)
      else
        let r := runRequests cfg ts st
        (false :: r.1, r.2)

/-- The limiter classes applied to each rate-limited route:
`apiLimiter` app-wide (server.js `app.use(apiLimiter)`), plus
`populateLimiter` on GET /populate and `writeLimiter` on POST /comment and
DELETE /comments/:id (routes/index.js). -/
inductive Endpoint where
  | populate | usersList | userById | commentCreate | commentsList
  | commentById | commentDelete | health | home
deriving DecidableEq, Repr

/-- Which limiter classes gate each endpoint, outermost first. -/
def appliedLimiters : Endpoint → List RateLimitConfig
  | .populate => [apiLimiterCfg, populateLimiterCfg]
  | .commentCreate => [apiLimiterCfg, writeLimiterCfg]
  | .commentDelete => [apiLimiterCfg, writeLimiterCfg]
  | _ => [apiLimiterCfg]

/-! ## User-id validation and lookup (src/unnamed/part_003 `validateUserId`,
routes/index.js `userController.getUserById`) -/

/-- `validators.validateUserId`: the `userId` body field must exist and be
an integer of value at least 1.  Both checks run and accumulate: an absent
field yields both messages.  The input is the field's value, stringified
(`none` models an absent field). -/
def validateUserIdErrors (userId : Option String) : List String :=
  let e1 := match userId with
    | none => ["userId is required"]
    | some _ => []
  let e2 := match userId with
    | none => ["userId must be a positive integer"]
    | some s =>
        match parseIdParam s with
        | some n => if 1 ≤ n then [] else ["userId must be a positive integer"]
        | none => ["userId must be a positive integer"]
  e1 ++ e2

/-- `userController.getUserById`: its own falsy check on `userId`, then
`findByPk`, 404 when absent, else the user record. -/
def userByIdController (userId : Option Nat) (st : UserStore) :
    ApiResp ⊕ UserRec :=
  match userId with
  | none => .inl (.badRequest "userId is required")
  | some uid =>
      if uid = 0 then .inl (.badRequest "userId is required")
      else
        match st.users.find? (fun u => u.id == uid) with
        | none => .inl (.notFound "User not found")
        | some u => .inr u

/-- POST /user: `validateUserId` then `handleValidationErrors` then the
controller (reading the `toInt()`-converted value). -/
def postUserRoute (userId : Option String) (st : UserStore) :
    ApiResp ⊕ UserRec :=
  let errs := validateUserIdErrors userId
  if errs = [] then userByIdController (userId.bind parseIdParam) st
  else .inl (.validationFailed errs)

/-- `commentController.getCommentById`: 404 when absent, else the row. -/
def getCommentByIdController (commentId : Nat) (st : CommentStore) :
    ApiResp ⊕ (Nat × String) :=
  match st.comments.find? (fun c => c.1 == commentId) with
  | none => .inl (.notFound "Comment not found")
  | some c => .inr c

/-- GET /comments/:id: `validateCommentId` then `handleValidationErrors`
then the controller. -/
def getCommentByIdRoute (idParam : String) (st : CommentStore) :
    ApiResp ⊕ (Nat × String) :=
  let errs := validateCommentIdErrors idParam
  if errs = [] then getCommentByIdController ((parseIdParam idParam).getD 0) st
  else .inl (.validationFailed errs)

/-- Shape invariant of sanitizer output: anything before the first `<`,
and after it no `>` ever again. -/
def cleanB : List Char → Bool
  | [] => true
  | c :: cs => if c = '<' then cs.all (fun x => x != '>') else cleanB cs

/-- Invariant carried by the running sanitizer: a pending tag accumulator
never holds a `>`. -/
def tagAccOk : SanState → Prop
  | .tag acc => ∀ x ∈ acc, x ≠ '>'
  | _ => True

/-! ## Concrete evaluation checks -/

example : sanitize "<script>alert(1)</script>Hello" = "Hello" := by decide
example : sanitize "a <b>bold</b> move" = "a bold move" := by decide
example : sanitize "<style>p color red</style>x" = "x" := by decide
example : sanitize "hello & 2 > 1" = "hello & 2 > 1" := by decide
example : sanitize "unmatched <rest no close" = "unmatched <rest no close" := by decide
example : jsTrim "  hi there  " = "hi there" := by decide
example : jsTrim "   " = "" := by decide
example :
    createCommentRoute (.text "  tidy  ") ⟨[], 1⟩ =
      (.created 1 "  tidy  ", ⟨[(1, "  tidy  ")], 2⟩) := by decide
example :
    createCommentRoute (.text "<script>alert(1)</script>") ⟨[], 1⟩ =
      (.serverError "Failed to create comment", ⟨[], 1⟩) := by decide
example :
    createCommentRoute (.text "<b> </b>") ⟨[], 1⟩ =
      (.serverError "Failed to create comment", ⟨[], 1⟩) := by decide
example : commentModelOk " " = false := by decide
example :
    createCommentRoute (.obj none) ⟨[], 1⟩ =
      (.validationFailed ["Comment text is required", "Comment cannot be empty"],
        ⟨[], 1⟩) := by decide
example :
    deleteCommentRoute "2" ⟨[(2, "x")], 3⟩ = (.deleted, ⟨[], 3⟩) := by decide
example :
    deleteCommentRoute "9" ⟨[(2, "x")], 3⟩ =
      (.notFound "Comment not found", ⟨[(2, "x")], 3⟩) := by decide
example :
    (runRequests ⟨100, 2⟩ [0, 1, 2, 3, 105] none).1 =
      [true, true, false, false, true] := by decide
example :
    rateLimitStep [⟨100, 2⟩, ⟨100, 1⟩] 5
      [some ⟨1, 0⟩, some ⟨1, 0⟩] = (false, [some ⟨1, 0⟩, some ⟨1, 0⟩]) := by
  decide

/-! ## Sanitizer lemmas -/

theorem sanRun_txt_nil : sanRun .txt [] = [] := rfl

theorem sanRun_txt_lt (cs : List Char) :
    sanRun .txt ('<' :: cs) = sanRun (.tag []) cs := by simp [sanRun]

theorem sanRun_txt_cons (c : Char) (cs : List Char) (h : c ≠ '<') :
    sanRun .txt (c :: cs) = c :: sanRun .txt cs := by simp [sanRun, h]

theorem sanRun_tag_gt (acc cs : List Char) :
    sanRun (.tag acc) ('>' :: cs) =
      if tagNameLower acc.reverse = scriptName ∨
         tagNameLower acc.reverse = styleName then
        sanRun (.skipBody (tagNameLower acc.reverse)) cs
      else sanRun .txt cs := by
  simp [sanRun]

theorem sanRun_tag_cons (acc : List Char) (c : Char) (cs : List Char)
    (h : c ≠ '>') :
    sanRun (.tag acc) (c :: cs) = sanRun (.tag (c :: acc)) cs := by
  simp [sanRun, h]

theorem sanRun_skipBody_lt (n cs : List Char) :
    sanRun (.skipBody n) ('<' :: cs) = sanRun (.skipTag n []) cs := by
  simp [sanRun]

theorem sanRun_skipBody_cons (n : List Char) (c : Char) (cs : List Char)
    (h : c ≠ '<') :
    sanRun (.skipBody n) (c :: cs) = sanRun (.skipBody n) cs := by
  simp [sanRun, h]

theorem sanRun_skipTag_lt (n acc cs : List Char) :
    sanRun (.skipTag n acc) ('<' :: cs) = sanRun (.skipTag n []) cs := by
  simp [sanRun]

theorem sanRun_skipTag_gt (n acc cs : List Char) :
    sanRun (.skipTag n acc) ('>' :: cs) =
      if acc.reverse.map lowerChar = '/' :: n then sanRun .txt cs
      else sanRun (.skipBody n) cs := by
  simp [sanRun]

theorem sanRun_skipTag_cons (n acc : List Char) (c : Char) (cs : List Char)
    (h1 : c ≠ '<') (h2 : c ≠ '>') :
    sanRun (.skipTag n acc) (c :: cs) = sanRun (.skipTag n (c :: acc)) cs := by
  simp [sanRun, h1, h2]

/-- Markup-free text is passed through verbatim, prefix-compositionally. -/
theorem sanRun_txt_append (a b : List Char) (h : ∀ c ∈ a, c ≠ '<') :
    sanRun .txt (a ++ b) = a ++ sanRun .txt b := by
  induction a with
  | nil => rfl
  | cons c cs ih =>
      have hc : c ≠ '<' := h c (List.mem_cons_self c cs)
      have ih' := ih (fun x hx => h x (List.mem_cons_of_mem c hx))
      simp [sanRun_txt_cons _ _ hc, ih']

/-- A pending tag that never closes is emitted verbatim. -/
theorem sanRun_tag_no_gt (u : List Char) :
    ∀ acc : List Char, '>' ∉ u →
      sanRun (.tag acc) u = '<' :: acc.reverse ++ u := by
  induction u with
  | nil => intro acc _; simp [sanRun]
  | cons c cs ih =>
      intro acc h
      have hc : c ≠ '>' := fun hcontra => h (by simp [hcontra])
      have hcs : '>' ∉ cs := fun hx => h (List.mem_cons_of_mem c hx)
      simp [sanRun_tag_cons acc c cs hc, ih (c :: acc) hcs]

theorem all_ne_gt_iff (l : List Char) :
    (l.all (fun x => x != '>') = true) ↔ '>' ∉ l := by
  simp only [List.all_eq_true, bne_iff_ne]
  constructor
  · intro h hmem; exact h '>' hmem rfl
  · intro h x hx hc; exact h (hc ▸ hx)

theorem cleanB_lt (cs : List Char) :
    cleanB ('<' :: cs) = cs.all (fun x => x != '>') := by simp [cleanB]

theorem cleanB_cons (c : Char) (cs : List Char) (h : c ≠ '<') :
    cleanB (c :: cs) = cleanB cs := by simp [cleanB, h]

theorem cleanB_sanRun (l : List Char) :
    ∀ s : SanState, tagAccOk s → cleanB (sanRun s l) = true := by
  induction l with
  | nil =>
      intro s hs
      cases s with
      | txt => rfl
      | tag acc =>
          show cleanB ('<' :: acc.reverse) = true
          rw [cleanB_lt, all_ne_gt_iff]
          intro hmem
          exact hs '>' (List.mem_reverse.mp hmem) rfl
      | skipBody n => rfl
      | skipTag n acc => rfl
  | cons c cs ih =>
      intro s hs
      cases s with
      | txt =>
          by_cases hc : c = '<'
          · subst hc
            rw [sanRun_txt_lt]
            exact ih (.tag []) (by intro x hx; cases hx)
          · rw [sanRun_txt_cons c cs hc, cleanB_cons _ _ hc]
            exact ih .txt trivial
      | tag acc =>
          by_cases hc : c = '>'
          · subst hc
            rw [sanRun_tag_gt]
            split
            · exact ih (.skipBody _) trivial
            · exact ih .txt trivial
          · rw [sanRun_tag_cons acc c cs hc]
            refine ih (.tag (c :: acc)) ?_
            intro x hx
            rcases List.mem_cons.mp hx with h1 | h2
            · exact h1 ▸ hc
            · exact hs x h2
      | skipBody n =>
          by_cases hc : c = '<'
          · subst hc
            rw [sanRun_skipBody_lt]
            exact ih (.skipTag n []) trivial
          · rw [sanRun_skipBody_cons n c cs hc]
            exact ih (.skipBody n) trivial
      | skipTag n acc =>
          by_cases hc : c = '<'
          · subst hc
            rw [sanRun_skipTag_lt]
            exact ih (.skipTag n []) trivial
          · by_cases hg : c = '>'
            · subst hg
              rw [sanRun_skipTag_gt]
              split
              · exact ih .txt trivial
              · exact ih (.skipBody n) trivial
            · rw [sanRun_skipTag_cons n acc c cs hc hg]
              exact ih (.skipTag n (c :: acc)) trivial

/-- On already-clean text the sanitizer is the identity. -/
theorem sanRun_txt_of_cleanB (l : List Char) (h : cleanB l = true) :
    sanRun .txt l = l := by
  induction l with
  | nil => rfl
  | cons c cs ih =>
      by_cases hc : c = '<'
      · subst hc
        rw [cleanB_lt] at h
        have hcs : '>' ∉ cs := (all_ne_gt_iff cs).mp h
        rw [sanRun_txt_lt]
        simpa using sanRun_tag_no_gt cs [] hcs
      · rw [cleanB_cons c cs hc] at h
        rw [sanRun_txt_cons c cs hc, ih h]

theorem sanitizeList_idem (l : List Char) :
    sanitizeList (sanitizeList l) = sanitizeList l :=
  sanRun_txt_of_cleanB _ (cleanB_sanRun l .txt trivial)

/-- Consuming the inside of a tag up to (not including) the closing `>`. -/
theorem sanRun_tag_consume (w : List Char) (hw : '>' ∉ w) :
    ∀ acc cs : List Char,
      sanRun (.tag acc) (w ++ cs) = sanRun (.tag (w.reverse ++ acc)) cs := by
  induction w with
  | nil => intro acc cs; simp
  | cons c w' ih =>
      intro acc cs
      have hc : c ≠ '>' := fun h => hw (by simp [h])
      have hw' : '>' ∉ w' := fun h => hw (List.mem_cons_of_mem c h)
      rw [List.cons_append, sanRun_tag_cons _ _ _ hc, ih hw' (c :: acc)]
      simp

/-- Skipped body text before the next `<` is consumed without output. -/
theorem sanRun_skipBody_consume (w : List Char) (hw : ∀ c ∈ w, c ≠ '<') :
    ∀ n cs : List Char,
      sanRun (.skipBody n) (w ++ cs) = sanRun (.skipBody n) cs := by
  induction w with
  | nil => intro n cs; simp
  | cons c w' ih =>
      intro n cs
      have hc : c ≠ '<' := hw c (List.mem_cons_self c w')
      have hw' : ∀ x ∈ w', x ≠ '<' := fun x hx => hw x (List.mem_cons_of_mem c hx)
      rw [List.cons_append, sanRun_skipBody_cons _ _ _ hc, ih hw' n cs]

/-- Consuming a candidate closing tag inside a skipped body. -/
theorem sanRun_skipTag_consume (w : List Char)
    (hw : ∀ c ∈ w, c ≠ '<' ∧ c ≠ '>') :
    ∀ n acc cs : List Char,
      sanRun (.skipTag n acc) (w ++ cs) =
        sanRun (.skipTag n (w.reverse ++ acc)) cs := by
  induction w with
  | nil => intro n acc cs; simp
  | cons c w' ih =>
      intro n acc cs
      have hc := hw c (List.mem_cons_self c w')
      have hw' : ∀ x ∈ w', x ≠ '<' ∧ x ≠ '>' :=
        fun x hx => hw x (List.mem_cons_of_mem c hx)
      rw [List.cons_append, sanRun_skipTag_cons _ _ _ _ hc.1 hc.2,
        ih hw' n (c :: acc)]
      simp

/-- A well-formed `script`/`style` opening tag puts the sanitizer into
body-skipping state. -/
theorem sanRun_open_strip (nm : List Char) (hgt : '>' ∉ nm)
    (hlow : tagNameLower nm = nm)
    (hss : nm = scriptName ∨ nm = styleName) (cs : List Char) :
    sanRun .txt ('<' :: (nm ++ '>' :: cs)) = sanRun (.skipBody nm) cs := by
  rw [sanRun_txt_lt, sanRun_tag_consume nm hgt, sanRun_tag_gt]
  have h1 : (nm.reverse ++ ([] : List Char)).reverse = nm := by simp
  rw [h1, hlow, if_pos hss]

/-- The matching closing tag ends body-skipping and returns to text state. -/
theorem sanRun_close_strip (nm : List Char)
    (hok : ∀ c ∈ ('/' :: nm), c ≠ '<' ∧ c ≠ '>')
    (hlow2 : ('/' :: nm).map lowerChar = '/' :: nm) (cs : List Char) :
    sanRun (.skipTag nm []) (('/' :: nm) ++ '>' :: cs) = sanRun .txt cs := by
  rw [sanRun_skipTag_consume _ hok, sanRun_skipTag_gt]
  have h1 : ((('/' :: nm).reverse ++ ([] : List Char)).reverse).map lowerChar =
      '/' :: nm := by simpa using hlow2
  rw [if_pos h1]

/-- Stripping a whole `script`/`style` element: opening tag, body and
closing tag all disappear; surrounding text is sanitized as usual. -/
theorem sanitizeList_strip_element (nm : List Char)
    (hnm : nm = scriptName ∨ nm = styleName) (pre body post : List Char)
    (hpre : ∀ c ∈ pre, c ≠ '<') (hbody : ∀ c ∈ body, c ≠ '<') :
    sanitizeList
        (pre ++ '<' :: (nm ++ '>' :: (body ++ '<' :: ('/' :: (nm ++ '>' :: post))))) =
      pre ++ sanitizeList post := by
  have hgt : '>' ∉ nm := by rcases hnm with h | h <;> subst h <;> decide
  have hlow : tagNameLower nm = nm := by
    rcases hnm with h | h <;> subst h <;> decide
  have hok : ∀ c ∈ ('/' :: nm), c ≠ '<' ∧ c ≠ '>' := by
    rcases hnm with h | h <;> subst h <;> decide
  have hlow2 : ('/' :: nm).map lowerChar = '/' :: nm := by
    rcases hnm with h | h <;> subst h <;> decide
  unfold sanitizeList
  rw [sanRun_txt_append _ _ hpre]
  congr 1
  rw [show body ++ '<' :: ('/' :: (nm ++ '>' :: post)) =
        body ++ '<' :: (('/' :: nm) ++ '>' :: post) from by simp]
  rw [sanRun_open_strip nm hgt hlow hnm,
    sanRun_skipBody_consume body hbody, sanRun_skipBody_lt,
    sanRun_close_strip nm hok hlow2]

/-! ## Rate limiter lemmas -/

theorem limiterCheck_none (cfg : RateLimitConfig) (now : Nat) :
    limiterCheck cfg now none = 0 := rfl

theorem limiterCheck_live (cfg : RateLimitConfig) (now c ws : Nat)
    (h : now < ws + cfg.windowMs) :
    limiterCheck cfg now (some ⟨c, ws⟩) = c := by
  simp [limiterCheck, h]

theorem limiterCheck_expired (cfg : RateLimitConfig) (now c ws : Nat)
    (h : ws + cfg.windowMs ≤ now) :
    limiterCheck cfg now (some ⟨c, ws⟩) = 0 := by
  simp [limiterCheck, Nat.not_lt.mpr h]

/-- Recording an allowed request raises the effective count at that instant
by exactly one (window length at least one tick). -/
theorem limiterCheck_record (cfg : RateLimitConfig) (now : Nat)
    (st : Option CounterState) (hw : 1 ≤ cfg.windowMs) :
    limiterCheck cfg now (some (limiterRecord cfg now st)) =
      limiterCheck cfg now st + 1 := by
  have hfresh : now < now + cfg.windowMs := Nat.lt_add_of_pos_right hw
  match st with
  | none => simp [limiterRecord, limiterCheck, hfresh]
  | some c =>
      by_cases h : now < c.windowStart + cfg.windowMs
      · simp [limiterRecord, limiterCheck, h]
      · simp [limiterRecord, limiterCheck, h, hfresh]

theorem runRequests_nil (cfg : RateLimitConfig) (st : Option CounterState) :
    runRequests cfg [] st = ([], st) := rfl

theorem runRequests_cons_allow (cfg : RateLimitConfig) (t : Nat)
    (ts : List Nat) (st : Option CounterState)
    (h : limiterAllows cfg t st = true) :
    runRequests cfg (t :: ts) st =
      (true :: (runRequests cfg ts (some (limiterRecord cfg t st))).1,
        (runRequests cfg ts (some (limiterRecord cfg t st))).2) := by
  simp [runRequests, h]

theorem runRequests_cons_deny (cfg : RateLimitConfig) (t : Nat)
    (ts : List Nat) (st : Option CounterState)
    (h : limiterAllows cfg t st = false) :
    runRequests cfg (t :: ts) st =
      (false :: (runRequests cfg ts st).1, (runRequests cfg ts st).2) := by
  simp [runRequests, h]

theorem runRequests_append (cfg : RateLimitConfig) (xs ys : List Nat) :
    ∀ st : Option CounterState,
      runRequests cfg (xs ++ ys) st =
        ((runRequests cfg xs st).1 ++
           (runRequests cfg ys (runRequests cfg xs st).2).1,
          (runRequests cfg ys (runRequests cfg xs st).2).2) := by
  induction xs with
  | nil => intro st; simp [runRequests]
  | cons x xs' ih =>
      intro st
      by_cases h : limiterAllows cfg x st = true
      · rw [List.cons_append, runRequests_cons_allow cfg x _ st h,
          runRequests_cons_allow cfg x xs' st h, ih]
        simp
      · have h' : limiterAllows cfg x st = false := by
          cases hval : limiterAllows cfg x st
          · rfl
          · exact absurd hval h
        rw [List.cons_append, runRequests_cons_deny cfg x _ st h',
          runRequests_cons_deny cfg x xs' st h', ih]
        simp

/-- Requests inside a live window are all accepted while the counter has
headroom, each raising the count by one. -/
theorem runRequests_in_window (cfg : RateLimitConfig) (t : Nat) :
    ∀ (ts : List Nat) (c : Nat), (∀ x ∈ ts, x < t + cfg.windowMs) →
      c + ts.length ≤ cfg.maxReq →
      runRequests cfg ts (some ⟨c, t⟩) =
        (List.replicate ts.length true, some ⟨c + ts.length, t⟩) := by
  intro ts
  induction ts with
  | nil => intro c _ _; simp [runRequests]
  | cons x ts' ih =>
      intro c hin hcap
      have hx : x < t + cfg.windowMs := hin x (List.mem_cons_self x ts')
      have hc : c < cfg.maxReq := by
        have := hcap
        simp only [List.length_cons] at this
        omega
      have hallow : limiterAllows cfg x (some ⟨c, t⟩) = true := by
        simp [limiterAllows, limiterCheck_live cfg x c t hx, hc]
      have hrec : limiterRecord cfg x (some ⟨c, t⟩) = ⟨c + 1, t⟩ := by
        simp [limiterRecord, hx]
      rw [runRequests_cons_allow cfg x ts' _ hallow, hrec,
        ih (c + 1) (fun y hy => hin y (List.mem_cons_of_mem x hy))
          (by simp only [List.length_cons] at hcap; omega)]
      simp [List.replicate_succ]
      omega

/-- The full claimed scenario for one class: starting fresh, the first `M`
requests inside the window are accepted, the `(M+1)`-th is rejected and
does not change the counter. -/
theorem runRequests_scenario (cfg : RateLimitConfig) (hmax : 1 ≤ cfg.maxReq)
    (_hwin : 1 ≤ cfg.windowMs) (t : Nat) (ts : List Nat) (rej : Nat)
    (hts : ∀ x ∈ ts, x < t + cfg.windowMs)
    (hlen : ts.length + 1 = cfg.maxReq) (hrej : rej < t + cfg.windowMs) :
    runRequests cfg (t :: (ts ++ [rej])) none =
      (true :: (List.replicate ts.length true ++ [false]),
        some ⟨cfg.maxReq, t⟩) := by
  have hallow0 : limiterAllows cfg t none = true := by
    simp only [limiterAllows, limiterCheck, decide_eq_true_eq]
    exact hmax
  have hrec0 : limiterRecord cfg t none = ⟨1, t⟩ := rfl
  have hmid := runRequests_in_window cfg t ts 1 hts (by omega)
  have hdeny : limiterAllows cfg rej (some ⟨1 + ts.length, t⟩) = false := by
    simp [limiterAllows, limiterCheck_live cfg rej _ t hrej]
    omega
  rw [runRequests_cons_allow cfg t _ none hallow0, hrec0,
    runRequests_append cfg ts [rej], hmid,
    runRequests_cons_deny cfg rej [] _ hdeny, runRequests_nil]
  simp
  omega

/-- After the window has fully elapsed, a request is accepted again and
opens a fresh window. -/
theorem runRequests_after_window (cfg : RateLimitConfig)
    (hmax : 1 ≤ cfg.maxReq) (c t t' : Nat) (h : t + cfg.windowMs ≤ t') :
    runRequests cfg [t'] (some ⟨c, t⟩) = ([true], some ⟨1, t'⟩) := by
  have hallow : limiterAllows cfg t' (some ⟨c, t⟩) = true := by
    simp only [limiterAllows, limiterCheck_expired cfg t' c t h,
      decide_eq_true_eq]
    exact hmax
  have hrec : limiterRecord cfg t' (some ⟨c, t⟩) = ⟨1, t'⟩ := by
    simp [limiterRecord, Nat.not_lt.mpr h]
  rw [runRequests_cons_allow cfg t' [] _ hallow, hrec, runRequests_nil]

/-! ## Delete lemmas -/

/-- With pairwise-distinct identifiers (the storage invariant for a primary
key), erasing the first row matching a key equals dropping every row with
that key. -/
theorem eraseP_key_of_nodup (i : Nat) :
    ∀ l : List (Nat × String), (l.map Prod.fst).Nodup →
      l.eraseP (fun c => c.1 == i) = l.filter (fun c => c.1 != i) := by
  intro l
  induction l with
  | nil => intro _; rfl
  | cons x xs ih =>
      intro hnd
      simp only [List.map_cons, List.nodup_cons] at hnd
      by_cases hx : x.1 = i
      · have hfilter : xs.filter (fun c => c.1 != i) = xs := by
          rw [List.filter_eq_self]
          intro a ha
          have : a.1 ∈ xs.map Prod.fst := List.mem_map_of_mem Prod.fst ha
          have hne : a.1 ≠ i := by
            intro he
            exact hnd.1 (by rw [hx, ← he]; exact this)
          simpa using hne
        simp [List.eraseP_cons, List.filter_cons, hx, hfilter]
      · simp [List.eraseP_cons, List.filter_cons, hx, ih hnd.2]

/-! ## String plumbing -/

theorem stringEq_of_data (a b : String) (h : a.data = b.data) : a = b := by
  cases a; cases b; cases h; rfl

theorem data_append (a b : String) : (a ++ b).data = a.data ++ b.data := by
  cases a; cases b; rfl

theorem sanitize_data (s : String) : (sanitize s).data = sanitizeList s.data :=
  rfl

theorem jsTrim_length (s : String) :
    (jsTrim s).length = (jsTrimList s.data).length := rfl

theorem jsTrim_ne_empty_of_length (s : String) (h : 1 ≤ (jsTrim s).length) :
    jsTrim s ≠ "" := by
  intro he
  rw [he] at h
  exact absurd h (by decide)

/-! ## Validator characterization -/

theorem validateCommentErrors_some (b : ReqBody) (s : String)
    (h : extractComment b = some s) :
    validateCommentErrors b =
      (if (jsTrim s).length = 0 then ["Comment cannot be empty"]
       else if 1000 < (jsTrim s).length then
         ["Comment must be less than 1000 characters"]
       else []) := by
  simp [validateCommentErrors, h]

theorem validateCommentErrors_none (b : ReqBody)
    (h : extractComment b = none) :
    validateCommentErrors b =
      ["Comment text is required", "Comment cannot be empty"] := by
  simp [validateCommentErrors, h]

theorem validateCommentErrors_nil_of (b : ReqBody) (s : String)
    (h : extractComment b = some s) (h1 : 1 ≤ (jsTrim s).length)
    (h2 : (jsTrim s).length ≤ 1000) : validateCommentErrors b = [] := by
  rw [validateCommentErrors_some b s h, if_neg (by omega), if_neg (by omega)]

theorem validateCommentErrors_nil_elim (b : ReqBody)
    (h : validateCommentErrors b = []) :
    ∃ s : String, extractComment b = some s ∧
      1 ≤ (jsTrim s).length ∧ (jsTrim s).length ≤ 1000 := by
  match hext : extractComment b with
  | none => rw [validateCommentErrors_none b hext] at h; cases h
  | some s =>
      refine ⟨s, rfl, ?_⟩
      rw [validateCommentErrors_some b s hext] at h
      by_cases h0 : (jsTrim s).length = 0
      · rw [if_pos h0] at h; cases h
      · by_cases hbig : 1000 < (jsTrim s).length
        · rw [if_neg h0, if_pos hbig] at h; cases h
        · omega

/-! ## Route-level helper -/

theorem createCommentRoute_success (t : String) (h1 : 1 ≤ (jsTrim t).length)
    (h2 : (jsTrim t).length ≤ 1000) (st : CommentStore)
    (hok : commentModelOk (sanitize t) = true) :
    createCommentRoute (.text t) st =
      (.created st.nextId (sanitize t),
        ⟨st.comments ++ [(st.nextId, sanitize t)], st.nextId + 1⟩) := by
  have he : validateCommentErrors (.text t) = [] :=
    validateCommentErrors_nil_of _ t rfl h1 h2
  have hne : jsTrim t ≠ "" := jsTrim_ne_empty_of_length t h1
  simp [createCommentRoute, he, createCommentController, extractComment, hne,
    commentServiceCreate, commentCreate, hok]

/-! ## Claim theorems -/

/-- C3.  Script and style elements are stripped whole: for a text containing
a well-formed `script` (or `style`) element — markup-free surrounding prefix
and markup-free element body — the sanitizer output is the prefix followed
by the sanitized remainder: neither the opening tag, the body text, nor the
closing tag of the element contributes anything to the output. -/
theorem scriptStyleElementStripped (pre body post name : String)
    (hname : name = "script" ∨ name = "style")
    (hpre : ∀ c ∈ pre.data, c ≠ '<') (hbody : ∀ c ∈ body.data, c ≠ '<') :
    sanitize (pre ++ "<" ++ name ++ ">" ++ body ++ "</" ++ name ++ ">" ++ post) =
      pre ++ sanitize post := by
  have hnm : name.data = scriptName ∨ name.data = styleName := by
    rcases hname with h | h
    · exact Or.inl (by rw [h]; rfl)
    · exact Or.inr (by rw [h]; rfl)
  have key := sanitizeList_strip_element name.data hnm pre.data body.data
    post.data hpre hbody
  apply stringEq_of_data
  rw [sanitize_data, data_append, data_append, data_append, data_append,
    data_append, data_append, data_append, data_append, data_append,
    sanitize_data]
  have hlt : ("<" : String).data = ['<'] := rfl
  have hgt : (">" : String).data = ['>'] := rfl
  have hclose : ("</" : String).data = ['<', '/'] := rfl
  rw [hlt, hgt, hclose]
  rw [show pre.data ++ ['<'] ++ name.data ++ ['>'] ++ body.data ++ ['<', '/'] ++
        name.data ++ ['>'] ++ post.data =
      pre.data ++ '<' :: (name.data ++ '>' :: (body.data ++ '<' ::
        ('/' :: (name.data ++ '>' :: post.data)))) from by simp]
  exact key

/-- Witness for C3 at a concrete input. -/
theorem scriptStyleElementStripped_witness :
    sanitize ("Hi " ++ "<" ++ "script" ++ ">" ++ "alert(1)" ++ "</" ++
        "script" ++ ">" ++ "Bye") = "Hi " ++ sanitize "Bye" :=
  scriptStyleElementStripped "Hi " "alert(1)" "Bye" "script" (Or.inl rfl)
    (by decide) (by decide)

/-- C4.  Characters outside stripped markup are preserved verbatim: the
sanitizer is the identity on markup-free text and passes a markup-free
prefix through unchanged, character for character, with no escaping or
re-encoding. -/
theorem plainTextPreserved (a b : String) (h : ∀ c ∈ a.data, c ≠ '<') :
    sanitize a = a ∧ sanitize (a ++ b) = a ++ sanitize b := by
  have hsan : sanitizeList a.data = a.data := by
    have h0 := sanRun_txt_append a.data [] h
    simpa [sanitizeList, sanRun_txt_nil] using h0
  constructor
  · apply stringEq_of_data
    rw [sanitize_data, hsan]
  · apply stringEq_of_data
    rw [sanitize_data, data_append, data_append, sanitize_data]
    exact sanRun_txt_append a.data b.data h
/-- Witness for C4 at a concrete input. -/
theorem plainTextPreserved_witness :
    sanitize "safe text. " = "safe text. " ∧
      sanitize ("safe text. " ++ "<b>bold</b>") =
        "safe text. " ++ sanitize "<b>bold</b>" :=
  plainTextPreserved "safe text. " "<b>bold</b>" (by decide)

/-- C5.  The sanitizer is idempotent: sanitizing already-sanitized text
yields the same text. -/
theorem sanitizeIdempotent (t : String) : sanitize (sanitize t) = sanitize t :=
  congrArg String.mk (sanitizeList_idem t.data)

/-- C1 counterexample.  The claim says the persisted value is
`sanitized(trim(t))`; but for the valid submission `"  hi  "` the pipeline
persists `sanitize("  hi  ") = "  hi  "` (the controller passes the raw,
untrimmed text to the service), which differs from
`sanitize(trim("  hi  ")) = "hi"`. -/
theorem createCommentPersistsUntrimmed_counterexample :
    validateCommentErrors (.text "  hi  ") = [] ∧
    createCommentRoute (.text "  hi  ") ⟨[], 1⟩ =
      (.created 1 "  hi  ", ⟨[(1, "  hi  ")], 2⟩) ∧
    sanitize (jsTrim "  hi  ") = "hi" ∧
    ("  hi  " : String) ≠ "hi" ∧
    (createCommentRoute (.text "  hi  ") ⟨[], 1⟩).2.comments ≠
      [(1, sanitize (jsTrim "  hi  "))] := by
  refine ⟨by decide, by decide, by decide, by decide, by decide⟩

/-- C1 (amended).  For a text body whose trimmed form has length between 1
and 1000, validation succeeds and the value persisted by the create-comment
operation is `sanitize(t)` — the sanitizer applied to the raw, untrimmed
submitted text (whenever the store accepts that sanitized value); for empty
or over-1000-character trimmed text, validation fails with a 400. -/
theorem createCommentPersistsSanitizedRaw (t : String) :
    (1 ≤ (jsTrim t).length ∧ (jsTrim t).length ≤ 1000 →
       validateCommentErrors (.text t) = [] ∧
       ∀ st : CommentStore, commentModelOk (sanitize t) = true →
         createCommentRoute (.text t) st =
           (.created st.nextId (sanitize t),
             ⟨st.comments ++ [(st.nextId, sanitize t)], st.nextId + 1⟩)) ∧
    ((jsTrim t).length = 0 ∨ 1000 < (jsTrim t).length →
       validateCommentErrors (.text t) ≠ [] ∧
       ∀ st : CommentStore, createCommentRoute (.text t) st =
         (.validationFailed (validateCommentErrors (.text t)), st)) := by
  constructor
  · rintro ⟨h1, h2⟩
    exact ⟨validateCommentErrors_nil_of _ t rfl h1 h2,
      fun st hok => createCommentRoute_success t h1 h2 st hok⟩
  · intro hbad
    have hne : validateCommentErrors (.text t) ≠ [] := by
      intro hnil
      obtain ⟨s, hs, hlow, hhigh⟩ := validateCommentErrors_nil_elim _ hnil
      have : s = t := by
        simpa [extractComment] using hs.symm
      subst this
      omega
    refine ⟨hne, fun st => ?_⟩
    simp [createCommentRoute, hne]

/-- Witness for the amended C1 at concrete inputs: a valid body is stored
sanitized-but-untrimmed, an oversized body fails validation. -/
theorem createCommentPersistsSanitizedRaw_witness :
    createCommentRoute (.text " ok ") ⟨[], 7⟩ =
      (.created 7 (sanitize " ok "), ⟨[(7, sanitize " ok ")], 8⟩) ∧
    validateCommentErrors (.text "") ≠ [] := by
  constructor
  · exact ((createCommentPersistsSanitizedRaw " ok ").1
      ⟨by decide, by decide⟩).2 ⟨[], 7⟩ (by decide)
  · exact ((createCommentPersistsSanitizedRaw "").2 (Or.inl (by decide))).1

/-- C6.  On validated routes, a failing validation short-circuits: the
response is the 400 validation envelope built from the full accumulated
error list, the store is untouched (no sanitizer, handler or persistence
call), and every violated constraint contributes its message to the
returned details — including both messages when the body shape check and
the emptiness check both fail. -/
theorem validationShortCircuits :
    (∀ (b : ReqBody) (st : CommentStore), validateCommentErrors b ≠ [] →
       createCommentRoute b st =
         (.validationFailed (validateCommentErrors b), st) ∧
       (extractComment b = none →
          "Comment text is required" ∈ validateCommentErrors b ∧
          "Comment cannot be empty" ∈ validateCommentErrors b) ∧
       (∀ s : String, extractComment b = some s → (jsTrim s).length = 0 →
          "Comment cannot be empty" ∈ validateCommentErrors b) ∧
       (∀ s : String, extractComment b = some s → 1000 < (jsTrim s).length →
          "Comment must be less than 1000 characters" ∈
            validateCommentErrors b)) ∧
    (∀ (p : String) (st : CommentStore), validateCommentIdErrors p ≠ [] →
       deleteCommentRoute p st =
         (.validationFailed (validateCommentIdErrors p), st)) ∧
    (∀ (p : String) (st : CommentStore), validateCommentIdErrors p ≠ [] →
       getCommentByIdRoute p st =
         .inl (.validationFailed (validateCommentIdErrors p))) ∧
    (∀ (u : Option String) (st : UserStore), validateUserIdErrors u ≠ [] →
       postUserRoute u st =
         .inl (.validationFailed (validateUserIdErrors u)) ∧
       (u = none → "userId is required" ∈ validateUserIdErrors u ∧
          "userId must be a positive integer" ∈ validateUserIdErrors u)) := by
  refine ⟨?_, ?_, ?_, ?_⟩
  · intro b st hne
    refine ⟨by simp [createCommentRoute, hne], ?_, ?_, ?_⟩
    · intro hnone
      rw [validateCommentErrors_none b hnone]
      exact ⟨by simp, by simp⟩
    · intro s hs h0
      rw [validateCommentErrors_some b s hs, if_pos h0]
      simp
    · intro s hs hbig
      rw [validateCommentErrors_some b s hs, if_neg (by omega), if_pos hbig]
      simp
  · intro p st hne
    simp [deleteCommentRoute, hne]
  · intro p st hne
    simp [getCommentByIdRoute, hne]
  · intro u st hne
    refine ⟨by simp [postUserRoute, hne], ?_⟩
    rintro rfl
    exact ⟨by simp [validateUserIdErrors], by simp [validateUserIdErrors]⟩

/-- Witness for C6: a malformed body is answered with both accumulated
errors and the store unchanged; a bad id parameter is answered with the
validation envelope. -/
theorem validationShortCircuits_witness :
    createCommentRoute (.obj none) ⟨[(1, "kept")], 2⟩ =
      (.validationFailed
        ["Comment text is required", "Comment cannot be empty"],
        ⟨[(1, "kept")], 2⟩) ∧
    deleteCommentRoute "0" ⟨[(1, "kept")], 2⟩ =
      (.validationFailed ["Comment ID must be a positive integer"],
        ⟨[(1, "kept")], 2⟩) ∧
    postUserRoute none ⟨[], 1⟩ =
      .inl (.validationFailed
        ["userId is required", "userId must be a positive integer"]) := by
  refine ⟨?_, ?_, ?_⟩
  · exact ((validationShortCircuits.1 (.obj none) ⟨[(1, "kept")], 2⟩
      (by decide)).1).trans (by decide)
  · exact (validationShortCircuits.2.1 "0" ⟨[(1, "kept")], 2⟩
      (by decide)).trans (by decide)
  · exact ((validationShortCircuits.2.2.2 none ⟨[], 1⟩
      (by decide)).1).trans (by decide)

/-- C10.  The comment controller's own emptiness check is unreachable on
the POST /comment route: once `validateComment` has passed, the extraction
yields a string whose trimmed form is non-empty, so the controller never
answers its 400 `Comment text is required` and the route's behavior is the
controller's. -/
theorem controllerEmptinessCheckUnreachable (b : ReqBody)
    (h : validateCommentErrors b = []) :
    extractComment b ≠ none ∧
    (∀ s : String, extractComment b = some s → jsTrim s ≠ "") ∧
    ∀ st : CommentStore,
      (createCommentController b st).1 ≠
        ApiResp.badRequest "Comment text is required" ∧
      createCommentRoute b st = createCommentController b st := by
  obtain ⟨s, hs, h1, h2⟩ := validateCommentErrors_nil_elim b h
  refine ⟨by rw [hs]; exact fun hc => Option.noConfusion hc, ?_, ?_⟩
  · intro s' hs'
    have : s' = s := Option.some_inj.mp (hs'.symm.trans hs)
    subst this
    exact jsTrim_ne_empty_of_length s' h1
  · intro st
    have hne : jsTrim s ≠ "" := jsTrim_ne_empty_of_length s h1
    constructor
    · simp only [createCommentController, hs, hne, if_neg hne]
      match commentServiceCreate s st with
      | .ok (row, st') => simp
      | .error _ => simp
    · simp [createCommentRoute, h]

/-- Witness for C10 at a concrete passing body. -/
theorem controllerEmptinessCheckUnreachable_witness :
    (createCommentController (.text "hello") ⟨[], 1⟩).1 ≠
      ApiResp.badRequest "Comment text is required" :=
  ((controllerEmptinessCheckUnreachable (.text "hello") (by decide)).2.2
    ⟨[], 1⟩).1

/-- C9.  A comment consisting solely of a script element passes validation
(trimmed length 25), sanitizes to the empty string, which the `Comment`
model's non-empty constraint rejects, so the route answers a 500
`Failed to create comment` and stores nothing. -/
theorem validScriptOnlyCommentYields500 :
    (1 ≤ (jsTrim "<script>alert(1)</script>").length ∧
       (jsTrim "<script>alert(1)</script>").length ≤ 1000) ∧
    validateCommentErrors (.text "<script>alert(1)</script>") = [] ∧
    sanitize "<script>alert(1)</script>" = "" ∧
    commentModelOk "" = false ∧
    createCommentRoute (.text "<script>alert(1)</script>") ⟨[], 5⟩ =
      (.serverError "Failed to create comment", ⟨[], 5⟩) ∧
    (ApiResp.serverError "Failed to create comment").status = 500 := by
  refine ⟨⟨by decide, by decide⟩, by decide, by decide, by decide, by decide,
    rfl⟩

/-- C8.  Delete-comment with a validated identifier: when no stored comment
has that identifier the controller answers the 404 not-found envelope and
the store is unchanged; when one does (identifiers being pairwise distinct,
the primary-key invariant), exactly the rows with that identifier are
removed and a success confirmation is returned. -/
theorem deleteCommentSpec (i : Nat) (st : CommentStore) :
    ((∀ c ∈ st.comments, c.1 ≠ i) →
       deleteCommentController i st = (.notFound "Comment not found", st)) ∧
    ((st.comments.map Prod.fst).Nodup →
       ∀ c ∈ st.comments, c.1 = i →
         deleteCommentController i st =
           (.deleted,
             ⟨st.comments.filter (fun x => x.1 != i), st.nextId⟩)) := by
  constructor
  · intro habs
    have hfind : st.comments.find? (fun c => c.1 == i) = none := by
      rw [List.find?_eq_none]
      intro x hx
      simpa using habs x hx
    simp [deleteCommentController, commentServiceDelete, hfind]
  · intro hnd c hc hci
    have hfind : st.comments.find? (fun c => c.1 == i) ≠ none := by
      intro hnone
      rw [List.find?_eq_none] at hnone
      exact hnone c hc (by simp [hci])
    match hf : st.comments.find? (fun c => c.1 == i) with
    | none => exact absurd hf hfind
    | some x =>
        simp [deleteCommentController, commentServiceDelete, hf,
          eraseP_key_of_nodup i st.comments hnd]

/-- Witness for C8: deleting an absent id answers 404 and leaves the store
alone; deleting a present id removes exactly that row. -/
theorem deleteCommentSpec_witness :
    deleteCommentController 5 ⟨[(1, "a"), (2, "b")], 3⟩ =
      (.notFound "Comment not found", ⟨[(1, "a"), (2, "b")], 3⟩) ∧
    deleteCommentController 2 ⟨[(1, "a"), (2, "b")], 3⟩ =
      (.deleted, ⟨[(1, "a")], 3⟩) := by
  constructor
  · exact (deleteCommentSpec 5 ⟨[(1, "a"), (2, "b")], 3⟩).1 (by decide)
  · exact ((deleteCommentSpec 2 ⟨[(1, "a"), (2, "b")], 3⟩).2 (by decide)
      (2, "b") (by decide) rfl).trans (by decide)

/-- C7.  Bulk-populate requests exactly three external candidate records;
on a failed fetch nothing is created and the answer is the generic 500; on
a successful fetch of three records one user is created per record, in
order, from the candidate's first/last name, email and age, and the
created users are returned in creation order with their storage-assigned
sequential identifiers. -/
theorem populateUsersSpec :
    populateResultsCount = 3 ∧
    (∀ st : UserStore,
       populateController (.error ()) st =
         (.inl (.serverError "Failed to populate users"), st) ∧
       (ApiResp.serverError "Failed to populate users").status = 500) ∧
    (∀ (c1 c2 c3 : Candidate) (st : UserStore),
       populateController (.ok [c1, c2, c3]) st =
         (.inr [⟨st.nextId, c1.first, c1.last, c1.email, c1.age⟩,
                ⟨st.nextId + 1, c2.first, c2.last, c2.email, c2.age⟩,
                ⟨st.nextId + 2, c3.first, c3.last, c3.email, c3.age⟩],
           ⟨st.users ++
              [⟨st.nextId, c1.first, c1.last, c1.email, c1.age⟩,
               ⟨st.nextId + 1, c2.first, c2.last, c2.email, c2.age⟩,
               ⟨st.nextId + 2, c3.first, c3.last, c3.email, c3.age⟩],
             st.nextId + 3⟩)) := by
  refine ⟨rfl, fun st => ⟨rfl, rfl⟩, fun c1 c2 c3 st => ?_⟩
  simp [populateController, createUsersLoop]

/-- C2.  Rate limiting per (client address, class) key.  Every limiter
class configured for a route has positive maximum and window.  A request
finding any applicable counter at or over its maximum is rejected and no
counter changes; a request finding headroom in every applicable counter
proceeds and raises each counter's effective count by exactly one.  For a
single class with window `W` and maximum `M`, starting fresh: `M` requests
within the window are all accepted, the `(M+1)`-th request inside the
window is rejected leaving the counter at `M`, and the first request at or
after the window's end is accepted again. -/
theorem rateLimiterSpec :
    (∀ e : Endpoint, ∀ cfg ∈ appliedLimiters e,
       1 ≤ cfg.maxReq ∧ 1 ≤ cfg.windowMs) ∧
    (∀ (cfgs : List RateLimitConfig) (now : Nat)
       (sts : List (Option CounterState)),
       ((∃ p ∈ cfgs.zip sts, p.1.maxReq ≤ limiterCheck p.1 now p.2) →
          rateLimitStep cfgs now sts = (false, sts)) ∧
       ((∀ p ∈ cfgs.zip sts, limiterCheck p.1 now p.2 < p.1.maxReq) →
          (∀ cfg ∈ cfgs, 1 ≤ cfg.windowMs) →
          rateLimitStep cfgs now sts =
            (true,
              (cfgs.zip sts).map (fun p => some (limiterRecord p.1 now p.2))) ∧
          ∀ p ∈ cfgs.zip sts,
            limiterCheck p.1 now (some (limiterRecord p.1 now p.2)) =
              limiterCheck p.1 now p.2 + 1)) ∧
    (∀ cfg : RateLimitConfig, 1 ≤ cfg.maxReq → 1 ≤ cfg.windowMs →
       ∀ (t rej : Nat) (ts : List Nat), (∀ x ∈ ts, x < t + cfg.windowMs) →
         ts.length + 1 = cfg.maxReq → rej < t + cfg.windowMs →
         runRequests cfg (t :: (ts ++ [rej])) none =
           (true :: (List.replicate ts.length true ++ [false]),
             some ⟨cfg.maxReq, t⟩)) ∧
    (∀ cfg : RateLimitConfig, 1 ≤ cfg.maxReq → ∀ c t t2 : Nat,
       t + cfg.windowMs ≤ t2 →
       runRequests cfg [t2] (some ⟨c, t⟩) = ([true], some ⟨1, t2⟩)) := by
  refine ⟨?_, ?_, ?_, ?_⟩
  · intro e
    cases e <;> decide
  · intro cfgs now sts
    constructor
    · rintro ⟨p, hp, hle⟩
      rw [rateLimitStep, if_neg]
      intro hall
      have hallow := List.all_eq_true.mp hall p hp
      simp only [limiterAllows, decide_eq_true_eq] at hallow
      omega
    · intro hroom hwin
      have hall : (cfgs.zip sts).all
          (fun p => limiterAllows p.1 now p.2) = true := by
        rw [List.all_eq_true]
        intro p hp
        simp only [limiterAllows, decide_eq_true_eq]
        exact hroom p hp
      refine ⟨by rw [rateLimitStep, if_pos hall], ?_⟩
      intro p hp
      obtain ⟨a, b⟩ := p
      exact limiterCheck_record a now b (hwin a (List.of_mem_zip hp).1)
  · intro cfg hmax hwinp t rej ts hts hlen hrej
    exact runRequests_scenario cfg hmax hwinp t ts rej hts hlen hrej
  · intro cfg hmax c t t2 h
    exact runRequests_after_window cfg hmax c t t2 h

/-- Witness for C2 with the write-class configuration: 50 requests from one
address inside a window are accepted, the 51st is rejected leaving the
counter at 50, and a request after the window reopens it. -/
theorem rateLimiterSpec_witness :
    runRequests writeLimiterCfg (0 :: (List.replicate 49 1 ++ [2])) none =
      (true :: (List.replicate 49 true ++ [false]), some ⟨50, 0⟩) ∧
    runRequests writeLimiterCfg [900000] (some ⟨50, 0⟩) =
      ([true], some ⟨1, 900000⟩) := by
  constructor
  · have h := rateLimiterSpec.2.2.1 writeLimiterCfg (by decide) (by decide)
      0 2 (List.replicate 49 1) (by decide) (by decide) (by decide)
    simpa using h
  · exact rateLimiterSpec.2.2.2 writeLimiterCfg (by decide) 50 0 900000
      (by decide)
